import Mathlib

/-!
# Verification of the letta-code-sdk session/transport engine

Shallow embedding of the SDK's subprocess transport, background message pump,
stream buffer, control-response waiter map, permission decision engine and
session guards, translated from the TypeScript sources:

* `Session` (the revision with the background pump, stream queue and
  `controlResponseWaiters` map) — `runBackgroundPump`, `enqueueStreamMessage`,
  `nextBufferedMessage`, `resolveAllStreamWaiters`, `handleCanUseTool`,
  `listMessages`, `close`, `transformMessage`.
* `SubprocessTransport` — `connect`'s stdout-line and process-exit handlers,
  `read`, `messages`, `close`, `handleMessage`.

Stateful asynchronous code is embedded as explicit state-passing step
functions; pending promise resolvers are represented by counters (stream/read
resolvers) or by the insertion-ordered list of registered keys (the
control-response waiter map).  Emitted resolutions and writes are collected in
output traces so that "resolved exactly once" style properties can be stated
as properties of the trace.
-/

namespace LettaSDK

/-! ## JavaScript value conventions

`Option String` stands for a possibly-`undefined` string field.  JS truthiness
of such a field ( `if (msg.content)` ) is: present and non-empty. -/

/-- JS truthiness of an optional string field: `undefined`, `null` and `""`
are falsy; any non-empty string is truthy. -/
def strTruthy : Option String → Bool
  | some s => s ≠ ""
  | none => false

/-! ## A model of `JSON.parse` on flat string-valued objects

The SDK calls the host's `JSON.parse` on tool-call argument strings.  We model
it on the sublanguage actually exercised by the claims: objects whose values
are escape-free string literals (e.g. `{"command":"echo hi"}`).  Inputs
outside this sublanguage conservatively fail to parse, which the callers map
to the raw-string fallback exactly as the source does for genuine JSON
failures. -/

/-- Drop leading JSON whitespace. -/
def skipWs : List Char → List Char
  | c :: cs => if c = ' ' ∨ c = '\n' ∨ c = '\t' ∨ c = '\r' then skipWs cs else c :: cs
  | [] => []

/-- Read the body of a string literal up to the closing quote (no escapes). -/
def strLitBody : List Char → Option (String × List Char)
  | [] => none
  | c :: cs =>
    if c = '"' then some ("", cs)
    else (strLitBody cs).map (fun p => (String.mk (c :: p.1.data), p.2))

/-- Parse a leading string literal `"..."`. -/
def parseStrLit : List Char → Option (String × List Char)
  | c :: cs => if c = '"' then strLitBody cs else none
  | [] => none

/-- Parse the members of a JSON object after the opening brace, ending at the
closing brace.  `fuel` bounds the recursion. -/
def parseMembers : Nat → List Char → Option (List (String × String) × List Char)
  | 0, _ => none
  | fuel + 1, cs =>
    match parseStrLit (skipWs cs) with
    | none => none
    | some (k, rest) =>
      match skipWs rest with
      | ':' :: rest2 =>
        match parseStrLit (skipWs rest2) with
        | none => none
        | some (v, rest3) =>
          match skipWs rest3 with
          | ',' :: rest4 =>
            (parseMembers fuel rest4).map (fun p => ((k, v) :: p.1, p.2))
          | '}' :: rest4 => some ([(k, v)], rest4)
          | _ => none
      | _ => none

/-- `JSON.parse` restricted to flat objects with string values: returns the
field list on success, `none` on anything else. -/
def jsonParseFlatObj (s : String) : Option (List (String × String)) :=
  match skipWs s.data with
  | '{' :: cs =>
    match skipWs cs with
    | '}' :: rest => if skipWs rest = [] then some [] else none
    | _ =>
      match parseMembers (s.length + 1) cs with
      | some (ms, rest) => if skipWs rest = [] then some ms else none
      | none => none
  | _ => none

/-! ## Wire protocol envelopes (`WireMessage`) -/

/-- A tool call record inside a `tool_call_message` wire message
(`{ name, arguments, tool_call_id }`). -/
structure ToolCallWire where
  name : String
  arguments : String
  tool_call_id : String
deriving Repr, DecidableEq

/-- Payload of a `control_response` envelope as destructured by the pump:
`{ subtype, request_id?, response?, error? }`.  The `response` field is
`unknown` in the source; we keep the shape `listMessages` reads from it. -/
structure CtrlRespPayload where
  subtype : String
  request_id : Option String := none
  messages : List String := []
  next_before : Option String := none
  has_more : Option Bool := none
  error : Option String := none
deriving Repr, DecidableEq

/-- One decoded line-protocol envelope, with the discriminants and fields the
`Session`/`SubprocessTransport` sources read.  `other` covers every `type`
value the source does not recognise (it reaches the final `return null`). -/
inductive WireMsg where
  | systemInit (agent_id session_id conversation_id model : String)
      (tools : List String) (memfs_enabled : Option Bool)
      (skill_sources : Option (List String))
      (system_info_reminder_enabled : Option Bool)
      (reflection_trigger reflection_behavior : Option String)
      (reflection_step_count : Option Nat)
  | message (message_type uuid : String) (content : Option String)
      (tool_call : Option ToolCallWire) (tool_calls : List ToolCallWire)
      (tool_call_id : Option String) (tool_return : Option String)
      (status : Option String) (reasoning : Option String)
  | streamEvent (event : Option String) (uuid : String)
  | result (subtype : String) (resultText : Option String) (duration_ms : Nat)
      (total_cost_usd : Option String) (conversation_id : String)
      (stop_reason : Option String)
  | errorMsg (message stop_reason : String) (run_id : Option String)
      (api_error : Option String)
  | retry (reason : String) (attempt max_attempts delay_ms : Nat)
      (run_id : Option String)
  | controlRequest (request_id subtype : String) (tool_name : Option String)
      (input : List (String × String))
  | controlResponse (payload : CtrlRespPayload)
  | other (type : String)
deriving Repr, DecidableEq

/-! ## SDK messages (`SDKMessage`) -/

/-- The `toolInput` computed by `transformMessage`: `JSON.parse(arguments)`
on success, `{ raw: arguments }` on parse failure. -/
inductive ToolInput where
  | parsed (obj : List (String × String))
  | raw (raw : String)
deriving Repr, DecidableEq

/-- SDK-facing messages, as constructed by `Session.transformMessage`. -/
inductive SDKMessage where
  | init (agentId sessionId conversationId model : String) (tools : List String)
      (memfsEnabled : Option Bool) (skillSources : Option (List String))
      (systemInfoReminderEnabled : Option Bool)
      (sleeptime : Option (String × String × Nat))
  | assistant (content uuid : String)
  | toolCall (toolCallId toolName : String) (toolInput : ToolInput) (uuid : String)
  | toolResult (toolCallId content : String) (isError : Bool) (uuid : String)
  | reasoning (content uuid : String)
  | streamEvent (event uuid : String)
  | result (success : Bool) (resultText : Option String) (error : Option String)
      (stopReason : Option String) (durationMs : Nat)
      (totalCostUsd : Option String) (conversationId : String)
  | errorMsg (message stopReason : String) (runId : Option String)
      (apiError : Option String)
  | retry (reason : String) (attempt maxAttempts delayMs : Nat)
      (runId : Option String)
deriving Repr, DecidableEq

/-- `JSON.parse(toolCall.arguments)` with the source's `catch` fallback
`{ raw: toolCall.arguments }`. -/
def parseToolInput (args : String) : ToolInput :=
  match jsonParseFlatObj args with
  | some obj => ToolInput.parsed obj
  | none => ToolInput.raw args

/-- `Session.transformMessage`: wire envelope → SDK message or `null`.
Translated branch by branch from the pump revision of `session.ts`; falling
off the end of the message-type checks yields `none` (the source's trailing
`return null`). -/
def transformMessage : WireMsg → Option SDKMessage
  | WireMsg.systemInit a s c m tools memfs skills sysinfo rtrig rbeh rsteps =>
    some (SDKMessage.init a s c m tools memfs skills sysinfo
      (if strTruthy rtrig ∧ strTruthy rbeh ∧ rsteps.isSome then
        some (rtrig.getD "", rbeh.getD "", rsteps.getD 0)
      else none))
  | WireMsg.message mt uuid content toolCall toolCalls toolCallId toolReturn status reasoning =>
    if mt = "assistant_message" ∧ strTruthy content then
      some (SDKMessage.assistant (content.getD "") uuid)
    else if mt = "tool_call_message" ∨ mt = "approval_request_message" then
      match toolCalls.head?.or toolCall with
      | some tc =>
        some (SDKMessage.toolCall tc.tool_call_id tc.name (parseToolInput tc.arguments) uuid)
      | none =>
        -- `if (toolCall)` fails: control falls through to the later
        -- message-type checks, none of which match these subtypes.
        none
    else if mt = "tool_return_message" ∧ strTruthy toolCallId then
      some (SDKMessage.toolResult (toolCallId.getD "") (toolReturn.getD "")
        (status = some "error") uuid)
    else if mt = "reasoning_message" ∧ strTruthy reasoning then
      some (SDKMessage.reasoning (reasoning.getD "") uuid)
    else none
  | WireMsg.streamEvent event uuid =>
    -- `const eventPayload = (msg.event ?? {})`
    some (SDKMessage.streamEvent (event.getD "") uuid)
  | WireMsg.result subtype resultText duration cost conv stop =>
    some (SDKMessage.result (subtype = "success") resultText
      (if subtype ≠ "success" then some subtype else none) stop duration cost conv)
  | WireMsg.errorMsg message stop runId apiError =>
    some (SDKMessage.errorMsg message stop runId apiError)
  | WireMsg.retry reason attempt maxA delay runId =>
    some (SDKMessage.retry reason attempt maxA delay runId)
  | WireMsg.controlRequest _ _ _ _ => none
  | WireMsg.controlResponse _ => none
  | WireMsg.other _ => none

/-! ## Session state and the background pump

`Session`'s mutable fields relevant to the pump: the `controlResponseWaiters`
map (represented by its insertion-ordered key list — each key owns one
one-shot resolver), the bounded `streamQueue`, the count of suspended
`nextBufferedMessage` resolvers, the dropped-message counter, the
`pumpClosed` flag and the `initialized` flag. -/

/-- `MAX_BUFFERED_STREAM_MESSAGES = 100`. -/
def maxBufferedStreamMessages : Nat := 100

structure SessionSt where
  controlResponseWaiters : List String := []
  streamQueue : List SDKMessage := []
  streamResolvers : Nat := 0
  droppedStreamMessages : Nat := 0
  pumpClosed : Bool := false
  isInit : Bool := false
deriving Repr, DecidableEq

/-- Observable effects emitted by one pump step: a control waiter resolved
with a payload, a stream message handed directly to a suspended consumer, a
stream consumer released with `null` (end of stream), or a control request
handled inline (its `control_response` write is modelled separately by
`handleCanUseToolResponse`). -/
inductive PumpOut where
  | resolvedWaiter (request_id : String) (payload : CtrlRespPayload)
  | handedToConsumer (msg : SDKMessage)
  | streamEnd
  | handledControlRequest (request_id subtype : String)
deriving Repr, DecidableEq

/-- `Session.enqueueStreamMessage`: hand off to a waiting consumer if one is
suspended; otherwise drop the oldest element when at capacity (incrementing
`droppedStreamMessages`) and append. -/
def enqueueStreamMessage (s : SessionSt) (msg : SDKMessage) : SessionSt × List PumpOut :=
  if s.streamResolvers > 0 then
    ({ s with streamResolvers := s.streamResolvers - 1 }, [PumpOut.handedToConsumer msg])
  else if s.streamQueue.length ≥ maxBufferedStreamMessages then
    ({ s with streamQueue := s.streamQueue.drop 1 ++ [msg],
              droppedStreamMessages := s.droppedStreamMessages + 1 }, [])
  else
    ({ s with streamQueue := s.streamQueue ++ [msg] }, [])

/-- The tail of the pump's loop body, reached by every envelope that is not a
control request or control response: classify with `transformMessage` and
enqueue the result, or log and drop a `null` classification. -/
def pumpStreamStep (s : SessionSt) (m : WireMsg) : SessionSt × List PumpOut :=
  match transformMessage m with
  | some sdk => enqueueStreamMessage s sdk
  | none => (s, [])

/-- One iteration of `Session.runBackgroundPump`'s `for await` body on a wire
message: control requests are handled inline (no session-state mutation
here); a control response is routed to the waiter registered under its
`request_id` (resolved exactly once and removed) or logged and dropped; any
other envelope goes through `transformMessage` and, if non-null, into
`enqueueStreamMessage`, else is logged and dropped. -/
def pumpStep (s : SessionSt) (m : WireMsg) : SessionSt × List PumpOut :=
  match m with
  | WireMsg.controlRequest rid sub _ _ => (s, [PumpOut.handledControlRequest rid sub])
  | WireMsg.controlResponse p =>
    match p.request_id with
    | some rid =>
      if rid ∈ s.controlResponseWaiters then
        ({ s with controlResponseWaiters := s.controlResponseWaiters.erase rid },
         [PumpOut.resolvedWaiter rid p])
      else (s, [])
    | none => (s, [])
  | m => pumpStreamStep s m

/-- An event on the session: the pump receives a wire message, or a caller
(`listMessages`) registers a control-response waiter under a fresh request id
before writing its control request. -/
inductive SessionOp where
  | recv (m : WireMsg)
  | registerWaiter (request_id : String)
deriving Repr, DecidableEq

/-- `this.controlResponseWaiters.set(requestId, resolve)` at the key level:
a new key is appended; re-using a live key leaves the key set unchanged
(the map holds at most one entry per key). -/
def registerControlWaiter (s : SessionSt) (rid : String) : SessionSt :=
  if rid ∈ s.controlResponseWaiters then s
  else { s with controlResponseWaiters := s.controlResponseWaiters ++ [rid] }

def sessionStep (s : SessionSt) (op : SessionOp) : SessionSt × List PumpOut :=
  match op with
  | SessionOp.recv m => pumpStep s m
  | SessionOp.registerWaiter rid => (registerControlWaiter s rid, [])

/-- Run a sequence of session events, concatenating the emitted effects. -/
def runOps (s : SessionSt) : List SessionOp → SessionSt × List PumpOut
  | [] => (s, [])
  | op :: rest =>
    let r := sessionStep s op
    let r2 := runOps r.1 rest
    (r2.1, r.2 ++ r2.2)

/-- The synthetic payload `{ subtype: "error", error: "session closed" }`
delivered to every outstanding control waiter on close/pump end. -/
def sessionClosedPayload : CtrlRespPayload :=
  { subtype := "error", error := some "session closed" }

/-- `Session.resolveAllStreamWaiters(null)`: release every suspended stream
consumer with `null` and force-resolve every outstanding control-response
waiter with the synthetic "session closed" error, then clear both. -/
def resolveAllStreamWaiters (s : SessionSt) : SessionSt × List PumpOut :=
  ({ s with streamResolvers := 0, controlResponseWaiters := [] },
   List.replicate s.streamResolvers PumpOut.streamEnd ++
     s.controlResponseWaiters.map (fun rid => PumpOut.resolvedWaiter rid sessionClosedPayload))

/-- The `finally` of `startBackgroundPump` (also run by `close()`): set
`pumpClosed` and resolve all waiters. -/
def finalizePump (s : SessionSt) : SessionSt × List PumpOut :=
  resolveAllStreamWaiters { s with pumpClosed := true }

/-- A full pump lifetime: process the events, then the termination cleanup. -/
def runSession (ops : List SessionOp) : SessionSt × List PumpOut :=
  let r := runOps { isInit := true } ops
  let f := finalizePump r.1
  (f.1, r.2 ++ f.2)

/-- Number of `registerWaiter rid` events in a list of session events. -/
def regCount (rid : String) : List SessionOp → Nat
  | [] => 0
  | SessionOp.registerWaiter r :: rest => (if r = rid then 1 else 0) + regCount rid rest
  | _ :: rest => regCount rid rest

/-- Number of resolutions of waiter `rid` in an effect trace. -/
def resCount (rid : String) : List PumpOut → Nat
  | [] => 0
  | PumpOut.resolvedWaiter r _ :: rest => (if r = rid then 1 else 0) + resCount rid rest
  | _ :: rest => resCount rid rest

/-- The part of the session state `stream()` observes: the buffered queue,
the suspended-consumer count and the dropped counter. -/
def streamView (s : SessionSt) : List SDKMessage × Nat × Nat :=
  (s.streamQueue, s.streamResolvers, s.droppedStreamMessages)

/-- The stream-facing effects in a trace: direct hand-offs to a suspended
consumer. -/
def streamOuts : List PumpOut → List SDKMessage
  | [] => []
  | PumpOut.handedToConsumer m :: rest => m :: streamOuts rest
  | _ :: rest => streamOuts rest

/-- Events that touch only the control plane (waiter registrations, inbound
control requests and control responses). -/
def isControlOp : SessionOp → Bool
  | SessionOp.registerWaiter _ => true
  | SessionOp.recv (WireMsg.controlRequest _ _ _ _) => true
  | SessionOp.recv (WireMsg.controlResponse _) => true
  | _ => false

/-- Push a list of messages through `enqueueStreamMessage` (discarding the
hand-off trace): the producer side of the Output Buffer. -/
def pushAll (s : SessionSt) : List SDKMessage → SessionSt
  | [] => s
  | m :: rest => pushAll (enqueueStreamMessage s m).1 rest

/-- Is this SDK message a terminal `result`? (`stream()` stops after it.) -/
def isResultMsg : SDKMessage → Bool
  | SDKMessage.result _ _ _ _ _ _ _ => true
  | _ => false

/-- `stream()`'s drain of an already-filled buffer: yield buffered messages
in order, stopping after the first `result` message. -/
def drainQueue : List SDKMessage → List SDKMessage
  | [] => []
  | m :: rest => if isResultMsg m then [m] else m :: drainQueue rest

/-! ## `listMessages` entry and exit -/

/-- Result of `listMessages`:
`{ messages, nextBefore, hasMore }` with the source's defaults. -/
structure ListMessagesResult where
  messages : List String
  nextBefore : Option String
  hasMore : Bool
deriving Repr, DecidableEq

/-- An outbound write to the transport, as far as the claims observe it. -/
inductive OutWire where
  | controlRequest (request_id subtype : String)
  | controlResponseSuccess (request_id : String)
  | userMessage
deriving Repr, DecidableEq

/-- The entry of `Session.listMessages`: throws unless initialized; otherwise
registers a waiter under the fresh request id and writes the `list_messages`
control request.  The error branch leaves the session state untouched. -/
def listMessagesStart (s : SessionSt) (requestId : String) :
    Except String (SessionSt × OutWire) × SessionSt :=
  if ¬ s.isInit then
    (Except.error "Session must be initialized before calling listMessages()", s)
  else
    let s2 := registerControlWaiter s requestId
    (Except.ok (s2, OutWire.controlRequest requestId "list_messages"), s2)

/-- The tail of `Session.listMessages` after its waiter resolves: an
`error`-subtype payload (including the synthetic session-closed payload)
throws; otherwise the page is assembled with `?? []` / `?? null` / `?? false`
defaults. -/
def listMessagesFinish (resp : CtrlRespPayload) : Except String ListMessagesResult :=
  if resp.subtype = "error" then
    Except.error (resp.error.getD "listMessages failed")
  else
    Except.ok { messages := resp.messages, nextBefore := resp.next_before,
                hasMore := resp.has_more.getD false }

/-- The guard at the entry of `Session.initialize` (the rest of the handshake
is not needed by the claims): a second call throws and mutates nothing. -/
def initGuard (s : SessionSt) : Except String Unit × SessionSt :=
  if s.isInit then (Except.error "Session already initialized", s)
  else (Except.ok (), s)

/-! ## Subprocess transport -/

/-- `SubprocessTransport`'s buffering state: the queued decoded envelopes,
the number of suspended `read()` resolvers, and the `closed` flag. -/
structure TransportSt where
  messageQueue : List WireMsg := []
  messageResolvers : Nat := 0
  closed : Bool := false
deriving Repr, DecidableEq

/-- Outcome of one `read()` call. -/
inductive ReadOutcome where
  | immediate (m : Option WireMsg)
  | blocked
deriving Repr, DecidableEq

/-- `SubprocessTransport.read`: a queued message wins; then `closed` yields
end-of-stream (`null`); otherwise the caller suspends as a new resolver. -/
def transportRead (s : TransportSt) : ReadOutcome × TransportSt :=
  match s.messageQueue with
  | m :: rest => (ReadOutcome.immediate (some m), { s with messageQueue := rest })
  | [] =>
    if s.closed then (ReadOutcome.immediate none, s)
    else (ReadOutcome.blocked, { s with messageResolvers := s.messageResolvers + 1 })

/-- `SubprocessTransport.handleMessage`: deliver to a suspended reader if any,
else enqueue.  The second component is the list of resolver deliveries. -/
def transportHandleMessage (s : TransportSt) (m : WireMsg) :
    TransportSt × List (Option WireMsg) :=
  if s.messageResolvers > 0 then
    ({ s with messageResolvers := s.messageResolvers - 1 }, [some m])
  else
    ({ s with messageQueue := s.messageQueue ++ [m] }, [])

/-- The `process.on("close", ...)` handler: mark closed and flush every
pending reader with `null` so none hangs. -/
def onProcessClose (s : TransportSt) : TransportSt × List (Option WireMsg) :=
  ({ s with closed := true, messageResolvers := 0 },
   List.replicate s.messageResolvers (none : Option WireMsg))

/-- The `process.on("error", ...)` handler: logs and marks closed.  It does
not flush pending readers (translated as-is from the source). -/
def onProcessError (s : TransportSt) : TransportSt :=
  { s with closed := true }

/-- `SubprocessTransport.close()`: kill the worker, mark closed, and flush
every pending reader with `null`. -/
def transportClose (s : TransportSt) : TransportSt × List (Option WireMsg) :=
  ({ s with closed := true, messageResolvers := 0 },
   List.replicate s.messageResolvers (none : Option WireMsg))

/-- The stdout `line` listener, parametrised by the outcome of
`JSON.parse(line)`: blank or malformed lines (`none`) are logged and skipped
with no state change; a decoded envelope goes to `handleMessage`. -/
def onStdoutLine (s : TransportSt) (parsed : Option WireMsg) :
    TransportSt × List (Option WireMsg) :=
  match parsed with
  | some m => transportHandleMessage s m
  | none => (s, [])

/-- Process a whole sequence of stdout lines (as parse outcomes) through the
`line` listener. -/
def processLines (s : TransportSt) : List (Option WireMsg) → TransportSt × List (Option WireMsg)
  | [] => (s, [])
  | l :: rest =>
    let r := onStdoutLine s l
    let r2 := processLines r.1 rest
    (r2.1, r.2 ++ r2.2)

/-! ## Permission decision engine (`Session.handleCanUseTool`) -/

/-- What `await this.options.canUseTool(toolName, input)` does, as observed
by the handler: return an allow (with optional `updatedInput`), return a deny
(with optional `message`), or throw — an `Error` carrying a message, or a
non-`Error` value (`none`). -/
inductive CallbackOutcome where
  | allow (updatedInput : Option (List (String × String)))
  | deny (message : Option String)
  | throws (errMessage : Option String)
deriving Repr, DecidableEq

/-- The `control_response` decision body: `{ behavior: "allow", updatedInput,
updatedPermissions }` or `{ behavior: "deny", message, interrupt }`. -/
inductive CanUseToolDecision where
  | allow (updatedInput : Option (List (String × String)))
      (updatedPermissions : List String)
  | deny (message : String) (interrupt : Bool)
deriving Repr, DecidableEq

/-- The decision chain of `Session.handleCanUseTool`, translated branch by
branch.  Inputs: `requiresRuntimeUserInput(toolName)`,
`isHeadlessAutoAllowTool(toolName)`, `options.permissionMode`, whether
`options.canUseTool` is a function, and the callback's behavior when
invoked. -/
def handleCanUseToolDecision (toolNeedsRuntimeUserInput autoAllowWithoutCallback : Bool)
    (permissionMode : Option String) (hasCallback : Bool)
    (cb : CallbackOutcome) : CanUseToolDecision :=
  if toolNeedsRuntimeUserInput ∧ ¬ hasCallback then
    CanUseToolDecision.deny "No canUseTool callback registered" false
  else if permissionMode = some "bypassPermissions" ∧ ¬ toolNeedsRuntimeUserInput then
    CanUseToolDecision.allow none []
  else if hasCallback then
    match cb with
    | CallbackOutcome.allow upd => CanUseToolDecision.allow upd []
    | CallbackOutcome.deny msg =>
      CanUseToolDecision.deny (msg.getD "Denied by canUseTool callback") false
    | CallbackOutcome.throws err =>
      CanUseToolDecision.deny (err.getD "Callback error") false
  else if autoAllowWithoutCallback then
    CanUseToolDecision.allow none []
  else
    CanUseToolDecision.deny "No canUseTool callback registered" false

/-- The tail of `Session.handleCanUseTool`: whatever branch produced the
decision, a `control_response` with `subtype: "success"` and the request's id
is written to the transport. -/
def handleCanUseToolFull (requestId : String)
    (toolNeedsRuntimeUserInput autoAllowWithoutCallback : Bool)
    (permissionMode : Option String) (hasCallback : Bool)
    (cb : CallbackOutcome) : CanUseToolDecision × OutWire :=
  (handleCanUseToolDecision toolNeedsRuntimeUserInput autoAllowWithoutCallback
     permissionMode hasCallback cb,
   OutWire.controlResponseSuccess requestId)

/-- Modelled from the spec: the §4.5 ordered rules, written as the claim
states them — (1) requires-human-input and no callback ⇒ deny "No canUseTool
callback registered"; (2) bypass mode and not requires-human-input ⇒ allow;
(3) callback present ⇒ its allow/deny result verbatim, an exception becoming
a deny with the exception's message; (4) tool in the auto-allow set ⇒ allow;
(5) otherwise deny. -/
def specPermissionRules (requiresHumanInput inAutoAllowSet : Bool)
    (mode : Option String) (hasCallback : Bool)
    (cb : CallbackOutcome) : CanUseToolDecision :=
  if requiresHumanInput ∧ ¬ hasCallback then
    CanUseToolDecision.deny "No canUseTool callback registered" false
  else if mode = some "bypassPermissions" ∧ ¬ requiresHumanInput then
    CanUseToolDecision.allow none []
  else if hasCallback then
    match cb with
    | CallbackOutcome.allow upd => CanUseToolDecision.allow upd []
    | CallbackOutcome.deny msg =>
      CanUseToolDecision.deny (msg.getD "Denied by canUseTool callback") false
    | CallbackOutcome.throws err =>
      CanUseToolDecision.deny (err.getD "Callback error") false
  else if inAutoAllowSet then
    CanUseToolDecision.allow none []
  else
    CanUseToolDecision.deny "No canUseTool callback registered" false

/-! ## Tool-call reassembler

Modelled from the spec: the tool-call argument reassembler (the
`pendingToolCalls` accumulator of the current `Session` revision) is not
among the sources under `src/` — only its test suite
(`tool-call-args-accumulation.test.ts`) is.  The definitions below follow
§4.3 of the spec: a fragment carries an optional explicit call id, an
optional positional index, and an argument-text fragment; the first fragment
bearing an explicit id establishes identity for its position; later
position-only fragments resolve to that identity; a fragment whose text
extends the accumulated prefix replaces it, otherwise it is appended; on
finalization the accumulated text is parsed as JSON, a parse failure
yielding the raw string instead. -/

structure ToolCallFragment where
  callId : Option String
  index : Option Nat
  name : String
  args : String
deriving Repr, DecidableEq

structure PendingToolCall where
  callId : Option String
  index : Option Nat
  name : String
  args : String
deriving Repr, DecidableEq

/-- Is the first character list a prefix of the second? -/
def isPrefixOfChars : List Char → List Char → Bool
  | [], _ => true
  | _ :: _, [] => false
  | a :: as, b :: bs => a = b && isPrefixOfChars as bs

/-- Fragment merge (spec §4.3): a prefix-extension replaces the accumulated
text, anything else is appended. -/
def mergeArgs (acc newText : String) : String :=
  if isPrefixOfChars acc.data newText.data then newText else acc ++ newText

/-- Does fragment `f` belong to pending call `p`?  An explicit id matches the
established id; otherwise a positional fragment resolves to the call
established at its position. -/
def fragMatches (p : PendingToolCall) (f : ToolCallFragment) : Bool :=
  (f.callId.isSome ∧ p.callId = f.callId) ∨ (f.index.isSome ∧ p.index = f.index)

/-- Ingest one fragment: merge into the first matching pending call (keeping
the established identity, adopting an explicit id if the entry had none), or
open a new pending call. -/
def reassemblerStep (pending : List PendingToolCall) (f : ToolCallFragment) :
    List PendingToolCall :=
  match pending with
  | [] => [{ callId := f.callId, index := f.index, name := f.name, args := f.args }]
  | p :: rest =>
    if fragMatches p f then
      { p with callId := p.callId.or f.callId, args := mergeArgs p.args f.args } :: rest
    else p :: reassemblerStep rest f

/-- Ingest a whole fragment sequence. -/
def reassembleAll (pending : List PendingToolCall) : List ToolCallFragment → List PendingToolCall
  | [] => pending
  | f :: rest => reassembleAll (reassemblerStep pending f) rest

/-- A finalized observable tool call. -/
structure FinalToolCall where
  toolCallId : String
  toolName : String
  toolInput : ToolInput
deriving Repr, DecidableEq

/-- Finalization (spec §4.3): parse the accumulated argument text as JSON,
falling back to the raw string. -/
def finalizeToolCall (p : PendingToolCall) : FinalToolCall :=
  { toolCallId := p.callId.getD "", toolName := p.name,
    toolInput := parseToolInput p.args }

/-! ## Auxiliary definitions for the statements -/

/-- 1 if `rid` is a live waiter key, else 0 (for the accounting invariant). -/
def memInd (rid : String) (l : List String) : Nat := if rid ∈ l then 1 else 0

/-- The `message_type` values `transformMessage` recognises. -/
def recognizedMessageTypes : List String :=
  ["assistant_message", "tool_call_message", "approval_request_message",
   "tool_return_message", "reasoning_message"]

/-- The 120 assistant-text events of the overflow scenario (distinct uuids). -/
def scenarioAssistants : List SDKMessage :=
  (List.range 120).map (fun i => SDKMessage.assistant "chunk" (toString i))

/-- The terminal result event of the overflow scenario. -/
def scenarioResult : SDKMessage :=
  SDKMessage.result true (some "done") none none 5 none "conv-1"

/-! ## Helper lemmas -/

theorem streamOuts_append (a b : List PumpOut) :
    streamOuts (a ++ b) = streamOuts a ++ streamOuts b := by
  induction a with
  | nil => rfl
  | cons x rest ih => cases x <;> simp [streamOuts, ih]

theorem resCount_append (rid : String) (a b : List PumpOut) :
    resCount rid (a ++ b) = resCount rid a + resCount rid b := by
  induction a with
  | nil => simp [resCount]
  | cons x rest ih => cases x <;> simp [resCount, ih] <;> omega

theorem resCount_replicate_streamEnd (rid : String) (n : Nat) :
    resCount rid (List.replicate n PumpOut.streamEnd) = 0 := by
  induction n with
  | zero => rfl
  | succ n ih => simp [List.replicate, resCount, ih]

theorem resCount_map_closed (rid : String) {l : List String} (h : l.Nodup) :
    resCount rid (l.map fun r => PumpOut.resolvedWaiter r sessionClosedPayload)
      = memInd rid l := by
  induction l with
  | nil => rfl
  | cons x rest ih =>
    have hx : x ∉ rest := (List.nodup_cons.mp h).1
    have hr := ih (List.nodup_cons.mp h).2
    by_cases hxr : x = rid
    · subst hxr
      simp [resCount, hr, memInd, hx]
    · simp [resCount, hxr, hr, memInd, List.mem_cons, Ne.symm hxr]

theorem enqueue_waiters (s : SessionSt) (m : SDKMessage) :
    (enqueueStreamMessage s m).1.controlResponseWaiters = s.controlResponseWaiters := by
  unfold enqueueStreamMessage
  split_ifs <;> rfl

theorem enqueue_resCount (rid : String) (s : SessionSt) (m : SDKMessage) :
    resCount rid (enqueueStreamMessage s m).2 = 0 := by
  unfold enqueueStreamMessage
  split_ifs <;> rfl

theorem register_nodup (s : SessionSt) (rid : String)
    (h : s.controlResponseWaiters.Nodup) :
    (registerControlWaiter s rid).controlResponseWaiters.Nodup := by
  unfold registerControlWaiter
  split_ifs with hm
  · exact h
  · simpa [List.nodup_append] using ⟨h, hm⟩

theorem register_memInd_self (s : SessionSt) (rid : String)
    (h : rid ∉ s.controlResponseWaiters) :
    memInd rid (registerControlWaiter s rid).controlResponseWaiters = 1 := by
  unfold registerControlWaiter memInd
  split_ifs <;> simp_all

theorem register_memInd_ne (s : SessionSt) (r rid : String) (h : r ≠ rid) :
    memInd rid (registerControlWaiter s r).controlResponseWaiters
      = memInd rid s.controlResponseWaiters := by
  unfold registerControlWaiter memInd
  split_ifs <;> simp_all

theorem register_waiters_subset {s : SessionSt} {r rid : String}
    (h : rid ∈ s.controlResponseWaiters) :
    rid ∈ (registerControlWaiter s r).controlResponseWaiters := by
  unfold registerControlWaiter
  split_ifs <;> simp [h]

/-- The stream tail of the pump step never touches the waiter map, resolves
no waiter, and emits at most a consumer hand-off. -/
theorem pumpStreamStep_waiters (rid : String) (s : SessionSt) (m : WireMsg) :
    (pumpStreamStep s m).1.controlResponseWaiters = s.controlResponseWaiters
    ∧ resCount rid (pumpStreamStep s m).2 = 0 := by
  unfold pumpStreamStep
  cases transformMessage m <;> simp [enqueue_waiters, enqueue_resCount, resCount]

/-- A pump step on anything but a control response leaves the waiter map
untouched and resolves no waiter. -/
theorem pumpStep_nonresponse_waiters (rid : String) (s : SessionSt) (m : WireMsg)
    (h : ∀ p, m ≠ WireMsg.controlResponse p) :
    (pumpStep s m).1.controlResponseWaiters = s.controlResponseWaiters
    ∧ resCount rid (pumpStep s m).2 = 0 := by
  cases m with
  | controlResponse p => exact absurd rfl (h p)
  | controlRequest r sub tn inp => exact ⟨rfl, rfl⟩
  | systemInit a b c d e f g i j k l => exact pumpStreamStep_waiters rid s _
  | message a b c d e f g i j => exact pumpStreamStep_waiters rid s _
  | streamEvent a b => exact pumpStreamStep_waiters rid s _
  | result a b c d e f => exact pumpStreamStep_waiters rid s _
  | errorMsg a b c d => exact pumpStreamStep_waiters rid s _
  | retry a b c d e => exact pumpStreamStep_waiters rid s _
  | other a => exact pumpStreamStep_waiters rid s _

/-- Accounting invariant of the waiter map: along any run of the pump, the
number of resolutions of a request id plus its live-waiter indicator equals
the number of its registrations plus its initial indicator, as long as the id
is registered at most once (the source generates unique request ids); the
waiter key list moreover stays duplicate-free. -/
theorem waiter_accounting (rid : String) :
    ∀ (ops : List SessionOp) (s : SessionSt),
      s.controlResponseWaiters.Nodup →
      regCount rid ops + memInd rid s.controlResponseWaiters ≤ 1 →
      (runOps s ops).1.controlResponseWaiters.Nodup
      ∧ resCount rid (runOps s ops).2
          + memInd rid (runOps s ops).1.controlResponseWaiters
        = regCount rid ops + memInd rid s.controlResponseWaiters := by
  intro ops
  induction ops with
  | nil =>
    intro s hnd _
    exact ⟨hnd, by simp [runOps, resCount, regCount]⟩
  | cons op rest ih =>
    intro s hnd hbound
    simp only [runOps]
    rcases op with m | r
    · -- pump receives a wire message
      by_cases hcr : ∃ p, m = WireMsg.controlResponse p
      · rcases hcr with ⟨p, rfl⟩
        simp only [sessionStep]
        rcases hpr : p.request_id with _ | r
        · simp only [pumpStep, hpr]
          have hih := ih s hnd (by simpa [regCount] using hbound)
          simpa [regCount, resCount] using hih
        · by_cases hmem : r ∈ s.controlResponseWaiters
          · simp only [pumpStep, hpr, if_pos hmem]
            have hnd2 : (s.controlResponseWaiters.erase r).Nodup := hnd.erase r
            by_cases hr : rid = r
            · subst hr
              have hmem1 : memInd rid s.controlResponseWaiters = 1 := by
                simp [memInd, hmem]
              have hreg0 : regCount rid rest = 0 := by
                simp [regCount, hmem1] at hbound; omega
              have hmem2 : memInd rid (s.controlResponseWaiters.erase rid) = 0 := by
                simp [memInd, hnd.mem_erase_iff]
              have hih := ih { s with
                  controlResponseWaiters := s.controlResponseWaiters.erase rid }
                hnd2 (by simp [hreg0, hmem2])
              refine ⟨hih.1, ?_⟩
              rw [resCount_append]
              simp only [regCount] at hih ⊢
              simp [resCount, hmem1, hreg0, hmem2] at hih ⊢
              omega
            · have hr2 : r ≠ rid := fun h => hr h.symm
              have hmemEq : memInd rid (s.controlResponseWaiters.erase r)
                  = memInd rid s.controlResponseWaiters := by
                simp [memInd, List.mem_erase_of_ne hr]
              have hih := ih { s with
                  controlResponseWaiters := s.controlResponseWaiters.erase r }
                hnd2 (by simp only [hmemEq]; simpa [regCount] using hbound)
              refine ⟨hih.1, ?_⟩
              rw [resCount_append]
              simp only [regCount] at hih ⊢
              simp [resCount, hr2, hmemEq] at hih ⊢
              omega
          · simp only [pumpStep, hpr, if_neg hmem]
            have hih := ih s hnd (by simpa [regCount] using hbound)
            simpa [regCount, resCount] using hih
      · have hne : ∀ p, m ≠ WireMsg.controlResponse p := fun p hp => hcr ⟨p, hp⟩
        have hw := pumpStep_nonresponse_waiters rid s m hne
        simp only [sessionStep]
        have hnd2 : (pumpStep s m).1.controlResponseWaiters.Nodup := by
          rw [hw.1]; exact hnd
        have hih := ih (pumpStep s m).1 hnd2
          (by rw [hw.1]; simpa [regCount] using hbound)
        refine ⟨hih.1, ?_⟩
        rw [resCount_append, hw.2]
        rw [hw.1] at hih
        simp only [regCount] at hih ⊢
        omega
    · -- a caller registers a waiter
      simp only [sessionStep]
      by_cases hr : rid = r
      · subst hr
        have hb : regCount rid rest = 0 ∧ memInd rid s.controlResponseWaiters = 0 := by
          simp [regCount] at hbound; omega
        have hnotmem : rid ∉ s.controlResponseWaiters := by
          by_contra hmem
          simp [memInd, hmem] at hb
        have hnd2 := register_nodup s rid hnd
        have hmem1 := register_memInd_self s rid hnotmem
        have hih := ih (registerControlWaiter s rid) hnd2
          (by rw [hmem1]; simp [hb.1])
        refine ⟨hih.1, ?_⟩
        rw [resCount_append]
        simp only [regCount] at hih ⊢
        simp [resCount, hb.1, hb.2, hmem1] at hih ⊢
        omega
      · have hr2 : r ≠ rid := fun h => hr h.symm
        have hmemEq := register_memInd_ne s r rid hr2
        have hnd2 := register_nodup s r hnd
        have hih := ih (registerControlWaiter s r) hnd2
          (by rw [hmemEq]; simpa [regCount, hr2] using hbound)
        refine ⟨hih.1, ?_⟩
        rw [resCount_append]
        simp only [regCount] at hih ⊢
        simp [resCount, hr2, hmemEq] at hih ⊢
        omega

/-- The stream tail of the pump never emits a waiter resolution. -/
theorem pumpStreamStep_no_resolution (s : SessionSt) (m : WireMsg) (r : String)
    (p : CtrlRespPayload) : PumpOut.resolvedWaiter r p ∉ (pumpStreamStep s m).2 := by
  unfold pumpStreamStep
  cases transformMessage m with
  | none => simp
  | some sdk =>
    unfold enqueueStreamMessage
    split_ifs <;> simp

/-- Every waiter resolution the pump itself emits carries a payload whose
`request_id` matches the resolved key. -/
theorem pump_resolution_matches (rid : String) (p : CtrlRespPayload) :
    ∀ (ops : List SessionOp) (s : SessionSt),
      PumpOut.resolvedWaiter rid p ∈ (runOps s ops).2 → p.request_id = some rid := by
  intro ops
  induction ops with
  | nil => intro s h; simp [runOps] at h
  | cons op rest ih =>
    intro s h
    simp only [runOps, List.mem_append] at h
    rcases h with h | h
    · rcases op with m | r
      · cases m with
        | controlRequest rr sub tn inp => simp [sessionStep, pumpStep] at h
        | controlResponse p2 =>
          simp only [sessionStep, pumpStep] at h
          rcases hpr : p2.request_id with _ | r2
          · rw [hpr] at h; simp at h
          · rw [hpr] at h
            by_cases hmem : r2 ∈ s.controlResponseWaiters
            · simp only [hmem, if_true, List.mem_singleton,
                PumpOut.resolvedWaiter.injEq] at h
              rw [h.2, h.1]
              exact hpr
            · simp [hmem] at h
        | systemInit a b c d e f g i j k l =>
          exact absurd h (pumpStreamStep_no_resolution s _ rid p)
        | message a b c d e f g i j =>
          exact absurd h (pumpStreamStep_no_resolution s _ rid p)
        | streamEvent a b =>
          exact absurd h (pumpStreamStep_no_resolution s _ rid p)
        | result a b c d e f =>
          exact absurd h (pumpStreamStep_no_resolution s _ rid p)
        | errorMsg a b c d =>
          exact absurd h (pumpStreamStep_no_resolution s _ rid p)
        | retry a b c d e =>
          exact absurd h (pumpStreamStep_no_resolution s _ rid p)
        | other a =>
          exact absurd h (pumpStreamStep_no_resolution s _ rid p)
      · simp [sessionStep] at h
    · exact ih _ h

/-! ## The claims -/

/-- **C1** — Every control request registered in `controlResponseWaiters` is
resolved exactly once over a pump lifetime with unique request ids: either by
the pump with a control-response payload whose `request_id` matches, or by
the termination/close cleanup with the synthetic session-closed error (on
which the awaiting `listMessages` throws); no waiter is resolved twice and
none is left registered after pump termination or close. -/
theorem controlWaiterResolvedExactlyOnce (ops : List SessionOp) (rid : String)
    (h : regCount rid ops = 1) :
    resCount rid (runSession ops).2 = 1
    ∧ (runSession ops).1.controlResponseWaiters = []
    ∧ (∀ p, PumpOut.resolvedWaiter rid p ∈ (runSession ops).2 →
        p.request_id = some rid ∨ p = sessionClosedPayload)
    ∧ listMessagesFinish sessionClosedPayload = Except.error "session closed" := by
  have hacc := waiter_accounting rid ops { isInit := true }
    (by simp) (by simp [h, memInd])
  refine ⟨?_, ?_, ?_, rfl⟩
  · simp only [runSession, finalizePump, resolveAllStreamWaiters]
    rw [resCount_append, resCount_append, resCount_replicate_streamEnd,
      resCount_map_closed rid hacc.1]
    have h2 := hacc.2
    simp only [memInd] at h2 ⊢
    simp only [List.mem_nil_iff, if_false] at h2
    split_ifs at h2 ⊢ <;> omega
  · simp [runSession, finalizePump, resolveAllStreamWaiters]
  · intro p hp
    simp only [runSession, finalizePump, resolveAllStreamWaiters,
      List.mem_append] at hp
    rcases hp with hp | hp | hp
    · exact Or.inl (pump_resolution_matches rid p ops { isInit := true } hp)
    · exfalso
      have := (List.mem_replicate.mp hp).2
      simp at this
    · rcases List.mem_map.mp hp with ⟨r2, _, heq⟩
      injection heq with h1 h2
      exact Or.inr h2.symm

/-- Witness for C1 at a concrete run: one registered `listMessages` waiter
and its matching control response. -/
theorem controlWaiterResolvedExactlyOnce_witness :
    resCount "list-1" (runSession [SessionOp.registerWaiter "list-1",
      SessionOp.recv (WireMsg.controlResponse
        { subtype := "success", request_id := some "list-1" })]).2 = 1 :=
  (controlWaiterResolvedExactlyOnce
    [SessionOp.registerWaiter "list-1",
     SessionOp.recv (WireMsg.controlResponse
       { subtype := "success", request_id := some "list-1" })]
    "list-1" (by decide)).1

/-- **C2 counterexample** — The claim as stated fails on the code at concrete
inputs: (a) the process `error` event handler only marks the transport
closed and does not force-resolve a blocked reader (a transport with one
suspended reader still has it after the handler runs); (b) after the worker
has exited, a `read()` with a buffered envelope returns that envelope, not
the end-of-stream value. -/
theorem workerExitClaim_counterexample :
    (onProcessError ⟨[], 1, false⟩).messageResolvers = 1
    ∧ (transportRead ⟨[WireMsg.other "x"], 0, true⟩).1
        = ReadOutcome.immediate (some (WireMsg.other "x")) := by
  exact ⟨rfl, rfl⟩

/-- **C2 amended** — When the worker's `close` event fires, the transport is
marked closed, every blocked reader is force-resolved with the end-of-stream
value `null`, and no resolver remains; thereafter `read()` never blocks: it
returns a previously buffered envelope while any remain and the end-of-stream
value once the buffer is empty.  (The `error` event handler only marks the
transport closed.) -/
theorem workerCloseReleasesReaders :
    (∀ s : TransportSt,
        (onProcessClose s).1.closed = true
        ∧ (onProcessClose s).1.messageResolvers = 0
        ∧ (onProcessClose s).2 = List.replicate s.messageResolvers none)
    ∧ (∀ s : TransportSt, s.closed = true → (transportRead s).1 ≠ ReadOutcome.blocked)
    ∧ (∀ s : TransportSt, s.closed = true → s.messageQueue = [] →
        transportRead s = (ReadOutcome.immediate none, s))
    ∧ (∀ (s : TransportSt) (m : WireMsg) (rest : List WireMsg),
        s.messageQueue = m :: rest →
        transportRead s = (ReadOutcome.immediate (some m),
          { s with messageQueue := rest })) := by
  refine ⟨fun s => ⟨rfl, rfl, rfl⟩, fun s h => ?_, fun s h hq => ?_, fun s m rest hq => ?_⟩
  · unfold transportRead
    cases hq : s.messageQueue <;> simp [h]
  · unfold transportRead
    rw [hq]
    simp [h]
  · unfold transportRead
    rw [hq]

/-- Witness for the amended C2 at concrete closed transports. -/
theorem workerCloseReleasesReaders_witness :
    ((transportRead ⟨[], 0, true⟩).1 ≠ ReadOutcome.blocked)
    ∧ transportRead ⟨[], 0, true⟩ = (ReadOutcome.immediate none, ⟨[], 0, true⟩)
    ∧ transportRead ⟨[WireMsg.other "x"], 0, true⟩
        = (ReadOutcome.immediate (some (WireMsg.other "x")), ⟨[], 0, true⟩) :=
  ⟨workerCloseReleasesReaders.2.1 ⟨[], 0, true⟩ rfl,
   workerCloseReleasesReaders.2.2.1 ⟨[], 0, true⟩ rfl rfl,
   workerCloseReleasesReaders.2.2.2 ⟨[WireMsg.other "x"], 0, true⟩
     (WireMsg.other "x") [] rfl⟩

/-- **C3** — For every combination of (mode, callback presence,
requires-runtime-user-input, auto-allow membership) and every callback
behavior, `handleCanUseTool`'s decision equals the spec's §4.5 ordered rules;
in particular requires-human-input with no callback is denied regardless of
mode, and bypass mode on a tool not requiring human input is allowed
regardless of callback presence. -/
theorem permissionDecisionMatchesSpecRules :
    (∀ (ni aa : Bool) (mode : Option String) (hc : Bool) (cb : CallbackOutcome),
        handleCanUseToolDecision ni aa mode hc cb = specPermissionRules ni aa mode hc cb)
    ∧ (∀ (aa : Bool) (mode : Option String) (cb : CallbackOutcome),
        handleCanUseToolDecision true aa mode false cb
          = CanUseToolDecision.deny "No canUseTool callback registered" false)
    ∧ (∀ (aa hc : Bool) (cb : CallbackOutcome),
        handleCanUseToolDecision false aa (some "bypassPermissions") hc cb
          = CanUseToolDecision.allow none []) := by
  refine ⟨fun ni aa mode hc cb => rfl, fun aa mode cb => ?_, fun aa hc cb => ?_⟩
  · simp [handleCanUseToolDecision]
  · simp [handleCanUseToolDecision]

/-- **C6** — Whenever the callback branch is the one that decides (a callback
is registered and the bypass-mode short-circuit does not apply), a callback
that throws is converted into a deny carrying the exception's message (or
"Callback error" for a non-Error throw), and a `control_response` for the
request id is still produced. -/
theorem callbackExceptionBecomesDeny (requestId : String) (ni aa : Bool)
    (mode : Option String) (err : Option String)
    (h : ¬ (mode = some "bypassPermissions" ∧ ni = false)) :
    handleCanUseToolFull requestId ni aa mode true (CallbackOutcome.throws err)
      = (CanUseToolDecision.deny (err.getD "Callback error") false,
         OutWire.controlResponseSuccess requestId) := by
  unfold handleCanUseToolFull handleCanUseToolDecision
  rcases ni with _ | _
  · have hmode : mode ≠ some "bypassPermissions" := fun hm => h ⟨hm, rfl⟩
    simp [hmode]
  · simp

/-- Witness for C6: a throwing callback in default mode is answered with a
deny carrying the exception message. -/
theorem callbackExceptionBecomesDeny_witness :
    handleCanUseToolFull "req-1" false false none true
        (CallbackOutcome.throws (some "boom"))
      = (CanUseToolDecision.deny "boom" false,
         OutWire.controlResponseSuccess "req-1") :=
  callbackExceptionBecomesDeny "req-1" false false none (some "boom") (by simp)

/-- **C9** — A second `initialize()` on an initialized session and a
`listMessages()` on an uninitialized session each throw a hard error that is
local to that call: the returned state is the unchanged input state (so the
waiter map, stream queue and identity fields are untouched and other
operations remain usable). -/
theorem sessionStateGuardsLocal :
    (∀ s : SessionSt, s.isInit = true →
        initGuard s = (Except.error "Session already initialized", s))
    ∧ (∀ (s : SessionSt) (requestId : String), s.isInit = false →
        listMessagesStart s requestId =
          (Except.error "Session must be initialized before calling listMessages()", s)) := by
  constructor
  · intro s h
    simp [initGuard, h]
  · intro s rid h
    simp [listMessagesStart, h]

/-- Witness for C9 at concrete session states. -/
theorem sessionStateGuardsLocal_witness :
    initGuard { isInit := true }
        = (Except.error "Session already initialized", { isInit := true })
    ∧ listMessagesStart { isInit := false } "list-1"
        = (Except.error "Session must be initialized before calling listMessages()",
           { isInit := false }) :=
  ⟨sessionStateGuardsLocal.1 { isInit := true } rfl,
   sessionStateGuardsLocal.2 { isInit := false } "list-1" rfl⟩

/-- **C10** — An `assistant_message` with empty `content` and a
`reasoning_message` with empty `reasoning` classify to `null` and are dropped
by the pump (state unchanged, nothing handed to a consumer), even though
their subtypes are recognised; any non-empty text produces the corresponding
SDK message. -/
theorem emptyTextMessagesDropped :
    (∀ (s : SessionSt) (uuid : String),
        transformMessage (WireMsg.message "assistant_message" uuid (some "")
            none [] none none none none) = none
        ∧ pumpStep s (WireMsg.message "assistant_message" uuid (some "")
            none [] none none none none) = (s, []))
    ∧ (∀ (s : SessionSt) (uuid : String),
        transformMessage (WireMsg.message "reasoning_message" uuid none
            none [] none none none (some "")) = none
        ∧ pumpStep s (WireMsg.message "reasoning_message" uuid none
            none [] none none none (some "")) = (s, []))
    ∧ (∀ (uuid c : String), c ≠ "" →
        transformMessage (WireMsg.message "assistant_message" uuid (some c)
            none [] none none none none) = some (SDKMessage.assistant c uuid))
    ∧ (∀ (uuid c : String), c ≠ "" →
        transformMessage (WireMsg.message "reasoning_message" uuid none
            none [] none none none (some c)) = some (SDKMessage.reasoning c uuid)) := by
  have hemptyA : ∀ uuid : String,
      transformMessage (WireMsg.message "assistant_message" uuid (some "")
        none [] none none none none) = none := by
    intro uuid
    simp [transformMessage, strTruthy]
  have hemptyR : ∀ uuid : String,
      transformMessage (WireMsg.message "reasoning_message" uuid none
        none [] none none none (some "")) = none := by
    intro uuid
    simp [transformMessage, strTruthy]
  refine ⟨fun s uuid => ⟨hemptyA uuid, ?_⟩, fun s uuid => ⟨hemptyR uuid, ?_⟩,
    fun uuid c hc => ?_, fun uuid c hc => ?_⟩
  · show pumpStreamStep s (WireMsg.message "assistant_message" uuid (some "")
        none [] none none none none) = (s, [])
    simp [pumpStreamStep, hemptyA uuid]
  · show pumpStreamStep s (WireMsg.message "reasoning_message" uuid none
        none [] none none none (some "")) = (s, [])
    simp [pumpStreamStep, hemptyR uuid]
  · simp [transformMessage, strTruthy, hc]
  · simp [transformMessage, strTruthy, hc]

/-- Witness for C10: a concrete non-empty assistant text is transformed. -/
theorem emptyTextMessagesDropped_witness :
    transformMessage (WireMsg.message "assistant_message" "u1" (some "hi")
        none [] none none none none) = some (SDKMessage.assistant "hi" "u1") :=
  emptyTextMessagesDropped.2.2.1 "u1" "hi" (by decide)

/-- A null-classified envelope makes the stream tail of the pump a no-op. -/
theorem pumpStreamStep_drop (s : SessionSt) (m : WireMsg)
    (h : transformMessage m = none) : pumpStreamStep s m = (s, []) := by
  simp [pumpStreamStep, h]

/-- **C7** — A stdout line that fails to parse is skipped and the line loop
continues with the remaining lines unaffected; an envelope whose
kind/subtype is unrecognised classifies to `null` and is dropped by the pump
without touching the stream state, handing nothing to a consumer and raising
no error. -/
theorem malformedAndUnknownInputsDropped :
    (∀ (s : TransportSt) (rest : List (Option WireMsg)),
        processLines s (none :: rest) = processLines s rest)
    ∧ (∀ (mt uuid : String) (content : Option String) (tc : Option ToolCallWire)
        (tcs : List ToolCallWire) (tci tr st rs : Option String),
        mt ∉ recognizedMessageTypes →
        transformMessage (WireMsg.message mt uuid content tc tcs tci tr st rs) = none)
    ∧ (∀ (t : String), transformMessage (WireMsg.other t) = none)
    ∧ (∀ (s : SessionSt) (m : WireMsg), transformMessage m = none →
        streamView (pumpStep s m).1 = streamView s
        ∧ streamOuts (pumpStep s m).2 = []) := by
  refine ⟨fun s rest => ?_, fun mt uuid content tc tcs tci tr st rs h => ?_,
    fun t => rfl, fun s m h => ?_⟩
  · simp [processLines, onStdoutLine]
  · simp only [recognizedMessageTypes, List.mem_cons, List.mem_singleton,
      not_or] at h
    obtain ⟨h1, h2, h3, h4, h5⟩ := by
      simpa [List.mem_nil_iff] using h
    simp [transformMessage, h1, h2, h3, h4, h5]
  · cases m with
    | controlRequest a b c d => exact ⟨rfl, rfl⟩
    | controlResponse p =>
      rcases hpr : p.request_id with _ | r
      · simp [pumpStep, hpr, streamView, streamOuts]
      · by_cases hmem : r ∈ s.controlResponseWaiters <;>
          simp [pumpStep, hpr, hmem, streamView, streamOuts]
    | systemInit a b c d e f g i j k l =>
      have h2 : pumpStep s (WireMsg.systemInit a b c d e f g i j k l) = (s, []) :=
        pumpStreamStep_drop s (WireMsg.systemInit a b c d e f g i j k l) h
      rw [h2]; exact ⟨rfl, rfl⟩
    | message a b c d e f g i j =>
      have h2 : pumpStep s (WireMsg.message a b c d e f g i j) = (s, []) :=
        pumpStreamStep_drop s (WireMsg.message a b c d e f g i j) h
      rw [h2]; exact ⟨rfl, rfl⟩
    | streamEvent a b =>
      have h2 : pumpStep s (WireMsg.streamEvent a b) = (s, []) :=
        pumpStreamStep_drop s (WireMsg.streamEvent a b) h
      rw [h2]; exact ⟨rfl, rfl⟩
    | result a b c d e f =>
      have h2 : pumpStep s (WireMsg.result a b c d e f) = (s, []) :=
        pumpStreamStep_drop s (WireMsg.result a b c d e f) h
      rw [h2]; exact ⟨rfl, rfl⟩
    | errorMsg a b c d =>
      have h2 : pumpStep s (WireMsg.errorMsg a b c d) = (s, []) :=
        pumpStreamStep_drop s (WireMsg.errorMsg a b c d) h
      rw [h2]; exact ⟨rfl, rfl⟩
    | retry a b c d e =>
      have h2 : pumpStep s (WireMsg.retry a b c d e) = (s, []) :=
        pumpStreamStep_drop s (WireMsg.retry a b c d e) h
      rw [h2]; exact ⟨rfl, rfl⟩
    | other a =>
      have h2 : pumpStep s (WireMsg.other a) = (s, []) :=
        pumpStreamStep_drop s (WireMsg.other a) h
      rw [h2]; exact ⟨rfl, rfl⟩

/-- Witness for C7: a `user_message` subtype is unrecognised, classifies to
`null`, and its pump step leaves the stream state untouched. -/
theorem malformedAndUnknownInputsDropped_witness :
    transformMessage (WireMsg.message "user_message" "u2" (some "hello")
        none [] none none none none) = none
    ∧ (streamView (pumpStep { isInit := true } (WireMsg.message "user_message" "u2"
        (some "hello") none [] none none none none)).1
        = streamView { isInit := true }) :=
  ⟨malformedAndUnknownInputsDropped.2.1 "user_message" "u2" (some "hello")
      none [] none none none none (by decide),
   (malformedAndUnknownInputsDropped.2.2.2 { isInit := true }
      (WireMsg.message "user_message" "u2" (some "hello") none [] none none none none)
      (malformedAndUnknownInputsDropped.2.1 "user_message" "u2" (some "hello")
        none [] none none none none (by decide))).1⟩

/-- `enqueueStreamMessage` reads and writes only the stream view. -/
theorem enqueue_congr (s t : SessionSt) (m : SDKMessage)
    (h : streamView s = streamView t) :
    streamView (enqueueStreamMessage s m).1 = streamView (enqueueStreamMessage t m).1
    ∧ (enqueueStreamMessage s m).2 = (enqueueStreamMessage t m).2 := by
  obtain ⟨hq, hr, hd⟩ : s.streamQueue = t.streamQueue
      ∧ s.streamResolvers = t.streamResolvers
      ∧ s.droppedStreamMessages = t.droppedStreamMessages := by
    simpa [streamView, Prod.ext_iff] using h
  unfold enqueueStreamMessage
  rw [hq, hr, hd]
  split_ifs <;> simp [streamView, hq, hr, hd]

/-- The stream tail of the pump depends only on the stream view. -/
theorem pumpStreamStep_congr (s t : SessionSt) (m : WireMsg)
    (h : streamView s = streamView t) :
    streamView (pumpStreamStep s m).1 = streamView (pumpStreamStep t m).1
    ∧ (pumpStreamStep s m).2 = (pumpStreamStep t m).2 := by
  unfold pumpStreamStep
  cases transformMessage m with
  | none => exact ⟨h, rfl⟩
  | some sdk => exact enqueue_congr s t sdk h

/-- Control-plane events leave the stream view unchanged and hand nothing to
a stream consumer. -/
theorem controlOp_stream_noop (s : SessionSt) (op : SessionOp)
    (h : isControlOp op = true) :
    streamView (sessionStep s op).1 = streamView s
    ∧ streamOuts (sessionStep s op).2 = [] := by
  rcases op with m | r
  · cases m with
    | controlRequest a b c d => exact ⟨rfl, rfl⟩
    | controlResponse p =>
      rcases hpr : p.request_id with _ | r
      · simp [sessionStep, pumpStep, hpr, streamView, streamOuts]
      · by_cases hmem : r ∈ s.controlResponseWaiters <;>
          simp [sessionStep, pumpStep, hpr, hmem, streamView, streamOuts]
    | systemInit a b c d e f g i j k l => exact Bool.noConfusion h
    | message a b c d e f g i j => exact Bool.noConfusion h
    | streamEvent a b => exact Bool.noConfusion h
    | result a b c d e f => exact Bool.noConfusion h
    | errorMsg a b c d => exact Bool.noConfusion h
    | retry a b c d e => exact Bool.noConfusion h
    | other a => exact Bool.noConfusion h
  · have hdef : sessionStep s (SessionOp.registerWaiter r)
        = (registerControlWaiter s r, []) := rfl
    rw [hdef]
    unfold registerControlWaiter
    split_ifs <;> exact ⟨rfl, rfl⟩

/-- A pump step on a stream-bound envelope depends only on the stream view. -/
theorem pumpStep_noncontrol_congr (s t : SessionSt) (m : WireMsg)
    (hctl : isControlOp (SessionOp.recv m) = false)
    (h : streamView s = streamView t) :
    streamView (pumpStep s m).1 = streamView (pumpStep t m).1
    ∧ (pumpStep s m).2 = (pumpStep t m).2 := by
  cases m with
  | controlRequest a b c d => exact Bool.noConfusion hctl
  | controlResponse p => exact Bool.noConfusion hctl
  | systemInit a b c d e f g i j k l =>
    exact pumpStreamStep_congr s t (WireMsg.systemInit a b c d e f g i j k l) h
  | message a b c d e f g i j =>
    exact pumpStreamStep_congr s t (WireMsg.message a b c d e f g i j) h
  | streamEvent a b => exact pumpStreamStep_congr s t (WireMsg.streamEvent a b) h
  | result a b c d e f => exact pumpStreamStep_congr s t (WireMsg.result a b c d e f) h
  | errorMsg a b c d => exact pumpStreamStep_congr s t (WireMsg.errorMsg a b c d) h
  | retry a b c d e => exact pumpStreamStep_congr s t (WireMsg.retry a b c d e) h
  | other a => exact pumpStreamStep_congr s t (WireMsg.other a) h

/-- Deleting all control-plane events from a run leaves the stream view and
the sequence of consumer hand-offs unchanged. -/
theorem runOps_control_free (ops : List SessionOp) :
    ∀ (s t : SessionSt), streamView s = streamView t →
      streamView (runOps s ops).1
        = streamView (runOps t (ops.filter (fun op => ! isControlOp op))).1
      ∧ streamOuts (runOps s ops).2
        = streamOuts (runOps t (ops.filter (fun op => ! isControlOp op))).2 := by
  induction ops with
  | nil => intro s t h; exact ⟨h, rfl⟩
  | cons op rest ih =>
    intro s t h
    by_cases hc : isControlOp op = true
    · have hstep := controlOp_stream_noop s op hc
      have hih := ih (sessionStep s op).1 t (hstep.1.trans h)
      simp only [runOps, List.filter_cons, hc, Bool.not_true, if_neg] at hih ⊢
      refine ⟨hih.1, ?_⟩
      rw [streamOuts_append, hstep.2]
      simpa using hih.2
    · have hc2 : isControlOp op = false := by
        simpa using hc
      rcases op with m | r
      · have hcongr := pumpStep_noncontrol_congr s t m hc2 h
        have hih := ih (pumpStep s m).1 (pumpStep t m).1 hcongr.1
        simp only [runOps, sessionStep, List.filter_cons, hc2, Bool.not_false,
          if_pos] at hih ⊢
        refine ⟨hih.1, ?_⟩
        rw [streamOuts_append, streamOuts_append, hcongr.2, hih.2]
      · exact Bool.noConfusion hc2

/-- **C8** — A control response never reaches the stream: the pump step on a
`control_response` leaves the stream view unchanged and hands nothing to a
consumer, and either resolves exactly the waiter registered under the
response's request id or drops the response; consequently interleaving
control traffic (e.g. a concurrent `listMessages`) into any run neither
loses nor reorders the stream-bound events. -/
theorem controlResponsesNeverStreamed :
    (∀ (s : SessionSt) (p : CtrlRespPayload),
        streamView (pumpStep s (WireMsg.controlResponse p)).1 = streamView s
        ∧ streamOuts (pumpStep s (WireMsg.controlResponse p)).2 = []
        ∧ ((pumpStep s (WireMsg.controlResponse p)).2 = []
            ∨ ∃ r, p.request_id = some r ∧ r ∈ s.controlResponseWaiters
                ∧ (pumpStep s (WireMsg.controlResponse p)).2
                    = [PumpOut.resolvedWaiter r p]))
    ∧ (∀ (s : SessionSt) (ops : List SessionOp),
        streamView (runOps s ops).1
          = streamView (runOps s (ops.filter (fun op => ! isControlOp op))).1
        ∧ streamOuts (runOps s ops).2
          = streamOuts (runOps s (ops.filter (fun op => ! isControlOp op))).2) := by
  constructor
  · intro s p
    rcases hpr : p.request_id with _ | r
    · simp [pumpStep, hpr, streamView, streamOuts]
    · by_cases hmem : r ∈ s.controlResponseWaiters
      · refine ⟨?_, ?_, Or.inr ⟨r, rfl, hmem, ?_⟩⟩ <;>
          simp [pumpStep, hpr, hmem, streamView, streamOuts]
      · refine ⟨?_, ?_, Or.inl ?_⟩ <;>
          simp [pumpStep, hpr, hmem, streamView, streamOuts]
  · intro s ops
    exact runOps_control_free ops s s rfl

/-- Closed form of repeated `enqueueStreamMessage` with no waiting consumer:
from a queue within capacity, pushing `l` keeps exactly the most recent 100
elements of `queue ++ l` and adds the number of evicted elements to the
dropped counter. -/
theorem pushAll_spec (l : List SDKMessage) :
    ∀ s : SessionSt, s.streamResolvers = 0 →
      s.streamQueue.length ≤ 100 →
      (pushAll s l).streamQueue
          = (s.streamQueue ++ l).drop (s.streamQueue.length + l.length - 100)
      ∧ (pushAll s l).droppedStreamMessages
          = s.droppedStreamMessages + (s.streamQueue.length + l.length - 100)
      ∧ (pushAll s l).streamResolvers = 0
      ∧ (pushAll s l).streamQueue.length ≤ 100 := by
  induction l with
  | nil =>
    intro s hr hq
    have h0 : s.streamQueue.length + List.length ([] : List SDKMessage) - 100 = 0 := by
      simp; omega
    refine ⟨?_, ?_, hr, ?_⟩ <;> simp [pushAll, h0, hq]
  | cons m rest ih =>
    intro s hr hq
    have hstep : pushAll s (m :: rest) = pushAll (enqueueStreamMessage s m).1 rest := rfl
    by_cases hlen : s.streamQueue.length ≥ maxBufferedStreamMessages
    · have hlen100 : s.streamQueue.length = 100 := by
        simp [maxBufferedStreamMessages] at hlen; omega
      have henq : (enqueueStreamMessage s m).1
          = { s with streamQueue := s.streamQueue.drop 1 ++ [m],
                     droppedStreamMessages := s.droppedStreamMessages + 1 } := by
        simp [enqueueStreamMessage, hr, hlen]
      have hq1 : ((s.streamQueue.drop 1 ++ [m]).length) = 100 := by
        simp [List.length_drop, hlen100]
      have hih := ih { s with streamQueue := s.streamQueue.drop 1 ++ [m],
                              droppedStreamMessages := s.droppedStreamMessages + 1 }
        hr (le_of_eq hq1)
      have happ : (s.streamQueue.drop 1 ++ [m]) ++ rest
          = (s.streamQueue ++ m :: rest).drop 1 := by
        rw [List.drop_append_of_le_length (by omega)]
        simp
      rw [hstep, henq]
      refine ⟨?_, ?_, hih.2.2.1, hih.2.2.2⟩
      · rw [hih.1]
        show ((s.streamQueue.drop 1 ++ [m]) ++ rest).drop
            ((s.streamQueue.drop 1 ++ [m]).length + rest.length - 100)
          = (s.streamQueue ++ m :: rest).drop
              (s.streamQueue.length + (m :: rest).length - 100)
        rw [hq1, happ, List.drop_drop]
        congr 1
        simp [hlen100]
        omega
      · rw [hih.2.1]
        show s.droppedStreamMessages + 1
              + ((s.streamQueue.drop 1 ++ [m]).length + rest.length - 100)
            = s.droppedStreamMessages
              + (s.streamQueue.length + (m :: rest).length - 100)
        rw [hq1]
        simp [hlen100]
        omega
    · have hlt : s.streamQueue.length < 100 := by
        simp [maxBufferedStreamMessages] at hlen; omega
      have henq : (enqueueStreamMessage s m).1
          = { s with streamQueue := s.streamQueue ++ [m] } := by
        simp [enqueueStreamMessage, hr, hlen]
      have hq1 : (s.streamQueue ++ [m]).length ≤ 100 := by
        simp; omega
      have hih := ih { s with streamQueue := s.streamQueue ++ [m] } hr hq1
      rw [hstep, henq]
      refine ⟨?_, ?_, hih.2.2.1, hih.2.2.2⟩
      · rw [hih.1]
        show ((s.streamQueue ++ [m]) ++ rest).drop
            ((s.streamQueue ++ [m]).length + rest.length - 100)
          = (s.streamQueue ++ m :: rest).drop
              (s.streamQueue.length + (m :: rest).length - 100)
        rw [List.append_assoc]
        congr 1
        simp
        omega
      · rw [hih.2.1]
        show s.droppedStreamMessages + ((s.streamQueue ++ [m]).length + rest.length - 100)
            = s.droppedStreamMessages + (s.streamQueue.length + (m :: rest).length - 100)
        congr 1
        simp
        omega

set_option maxRecDepth 100000 in
/-- **C4** — Pushing `100 + M` events (`M > 0`) into the empty stream buffer
with no consumer waiting leaves exactly the most recent 100 events in their
original relative order (the length-`M` prefix is evicted) with the dropped
counter equal to `M`; one push never grows the queue beyond 100 and never
decreases the dropped counter.  Concretely, after the `initialize()`
handshake has consumed the init envelope, pumping 120 assistant-text events
and a result with no consumer draining leaves the 99 most recent assistant
events followed by the result, a drain yields exactly those 100 events, and
the dropped counter is 21. -/
theorem streamBufferDropOldest :
    (∀ (l : List SDKMessage) (M : Nat), l.length = 100 + M → 0 < M →
        (pushAll {} l).streamQueue = l.drop M
        ∧ (pushAll {} l).droppedStreamMessages = M)
    ∧ (∀ (s : SessionSt) (m : SDKMessage), s.streamResolvers = 0 →
        s.streamQueue.length ≤ 100 →
        (enqueueStreamMessage s m).1.streamQueue.length ≤ 100)
    ∧ (∀ (s : SessionSt) (m : SDKMessage),
        s.droppedStreamMessages ≤ (enqueueStreamMessage s m).1.droppedStreamMessages)
    ∧ (drainQueue (pushAll {} (scenarioAssistants ++ [scenarioResult])).streamQueue
          = scenarioAssistants.drop 21 ++ [scenarioResult]
        ∧ (pushAll {} (scenarioAssistants ++ [scenarioResult])).droppedStreamMessages = 21
        ∧ (scenarioAssistants.drop 21).length = 99) := by
  refine ⟨fun l M hlen hM => ?_, fun s m hr hq => ?_, fun s m => ?_, ?_, ?_, ?_⟩
  · have hp := pushAll_spec l {} rfl (by simp)
    have hidx : ({} : SessionSt).streamQueue.length + l.length - 100 = M := by
      show 0 + l.length - 100 = M
      omega
    refine ⟨?_, ?_⟩
    · rw [hp.1, hidx]
      simp
    · rw [hp.2.1, hidx]
      show 0 + M = M
      omega
  · unfold enqueueStreamMessage
    split_ifs with h1 h2
    · simpa using hq
    · simp [List.length_drop]
      omega
    · simp [maxBufferedStreamMessages] at h2
      simp
      omega
  · unfold enqueueStreamMessage
    split_ifs <;> simp
  · decide
  · decide
  · decide

/-- Witness for C4: 101 pushes into the empty buffer evict exactly the first
event and count one drop. -/
theorem streamBufferDropOldest_witness :
    (pushAll {} ((List.range 101).map
        (fun i => SDKMessage.assistant "a" (toString i)))).streamQueue
      = ((List.range 101).map
          (fun i => SDKMessage.assistant "a" (toString i))).drop 1
    ∧ (pushAll {} ((List.range 101).map
        (fun i => SDKMessage.assistant "a" (toString i)))).droppedStreamMessages = 1 :=
  streamBufferDropOldest.1
    ((List.range 101).map (fun i => SDKMessage.assistant "a" (toString i)))
    1 (by simp) (by decide)

/-- **C5** — In the reassembler (modelled from spec §4.3, the accumulator's
source not being under `src/`): the scenario fragment with explicit id
"call-1" and argument text prefix, followed by a same-position continuation
with no id, accumulates to a single pending call whose id is "call-1" and
whose finalization parses the accumulated text as the JSON object with
`command` ↦ `echo hi`; in general the first id-bearing fragment establishes
the identity at its position and a later position-only fragment merges into
that entry keeping the established id. -/
theorem toolCallFragmentIdentity :
    (reassembleAll []
        [⟨some "call-1", some 0, "Bash", "\x7b\"command\":\"echo"⟩,
         ⟨none, some 0, "Bash", " hi\"\x7d"⟩]
      = [⟨some "call-1", some 0, "Bash", "\x7b\"command\":\"echo hi\"\x7d"⟩])
    ∧ (finalizeToolCall ⟨some "call-1", some 0, "Bash", "\x7b\"command\":\"echo hi\"\x7d"⟩
        = ⟨"call-1", "Bash", ToolInput.parsed [("command", "echo hi")]⟩)
    ∧ (∀ (p : PendingToolCall) (rest : List PendingToolCall) (f : ToolCallFragment),
        f.callId = none → f.index.isSome → p.index = f.index →
        reassemblerStep (p :: rest) f
          = { p with args := mergeArgs p.args f.args } :: rest)
    ∧ (∀ f : ToolCallFragment,
        reassemblerStep [] f = [⟨f.callId, f.index, f.name, f.args⟩]) := by
  refine ⟨by decide, by decide, fun p rest f h1 h2 h3 => ?_, fun f => rfl⟩
  unfold reassemblerStep
  have hm : fragMatches p f = true := by
    simp [fragMatches, h1, h2, h3]
  rw [if_pos hm]
  simp [h1, Option.or_none]

/-- Witness for C5: a position-only continuation merges into the id-bearing
entry at its position. -/
theorem toolCallFragmentIdentity_witness :
    reassemblerStep [⟨some "call-1", some 0, "Bash", "abc"⟩]
        ⟨none, some 0, "Bash", "def"⟩
      = [⟨some "call-1", some 0, "Bash", "abcdef"⟩] := by
  have h := toolCallFragmentIdentity.2.2.1 ⟨some "call-1", some 0, "Bash", "abc"⟩ []
    ⟨none, some 0, "Bash", "def"⟩ rfl (by decide) rfl
  rw [h]
  decide

end LettaSDK
